import Mathlib

/-!
Verification of the planetary-agent routing layer of the repository
(`.github/workflows/main.py`, a FastAPI backend).

The Python handlers are embedded shallowly: Python strings become `String`
(worked on through their `List Char` data), the module-level dict
`planetary_agents` becomes an association list, `dict.get k default`
becomes `List.find?` with a fallback, `str.replace`/`str.strip` are
reimplemented below with Python's semantics, the outbound
`requests.post` call of the TTS handler becomes an explicit function
parameter returning `Except` (a transport error raises, i.e. propagates
as `Except.error`), and each handler's JSON response becomes a structure
or an association list.
-/

namespace Portal

/-- Python `str.isspace` / the character class stripped by `str.strip()`:
ASCII whitespace, the file/group/record/unit separators, NEL, NBSP and the
Unicode space separators. -/
def pyIsSpace (c : Char) : Bool :=
  c.toNat = 0x20 || (0x09 ≤ c.toNat && c.toNat ≤ 0x0d) ||
  (0x1c ≤ c.toNat && c.toNat ≤ 0x1f) || c.toNat = 0x85 || c.toNat = 0xa0 ||
  c.toNat = 0x1680 || (0x2000 ≤ c.toNat && c.toNat ≤ 0x200a) ||
  c.toNat = 0x2028 || c.toNat = 0x2029 || c.toNat = 0x202f ||
  c.toNat = 0x205f || c.toNat = 0x3000

/-- Leading-whitespace removal on character lists (Python `str.lstrip()`). -/
def lstripL (s : List Char) : List Char := s.dropWhile pyIsSpace

/-- Trailing-whitespace removal on character lists (Python `str.rstrip()`). -/
def rstripL (s : List Char) : List Char := List.rdropWhile pyIsSpace s

/-- Python `str.strip()` on character lists: drop whitespace at both ends. -/
def stripL (s : List Char) : List Char := rstripL (lstripL s)

/-- Python `str.strip()`. -/
def pyStrip (s : String) : String := ⟨stripL s.data⟩

/-- Python `str.replace(pat, rep)` on character lists, for a nonempty
pattern `p` (the only case the program uses): scan left to right and
replace every non-overlapping occurrence of `p` by `r`. -/
def replaceAllL (p r : List Char) : List Char → List Char
  | [] => []
  | c :: cs =>
    if p.isPrefixOf (c :: cs) then
      r ++ replaceAllL p r (List.drop (p.length - 1) cs)
    else
      c :: replaceAllL p r cs
termination_by s => s.length
decreasing_by
· simp only [List.length_drop, List.length_cons]
  omega
· simp only [List.length_cons]
  omega

/-- Python `str.replace` (nonempty pattern). -/
def pyReplace (s pat rep : String) : String := ⟨replaceAllL pat.data rep.data s.data⟩

/-- The decomposition of a string along the left-to-right non-overlapping
occurrences of the (nonempty) pattern `p`, mirroring the scan of
`replaceAllL`: the input equals the returned segments interleaved with
`p`, and `replaceAllL` returns the same segments interleaved with the
replacement (proved below). -/
def splitOnPatL (p : List Char) : List Char → List (List Char)
  | [] => [[]]
  | c :: cs =>
    if p.isPrefixOf (c :: cs) then
      [] :: splitOnPatL p (List.drop (p.length - 1) cs)
    else
      (c :: (splitOnPatL p cs).headD []) :: (splitOnPatL p cs).tail
termination_by s => s.length
decreasing_by
· simp only [List.length_drop, List.length_cons]
  omega
· simp only [List.length_cons]
  omega

/-- The literal pattern `'Animate avatar to'` of `parse_instruction`. -/
def actPat : List Char := "Animate avatar to".data

/-- The literal replacement `'[ACTION]'` of `parse_instruction`. -/
def actMark : List Char := "[ACTION]".data

/-! ## Configuration (`main.py` lines 11-21) -/

def ELEVENLABS_API_KEY : String := "your-elevenlabs-api-key"

def ELEVENLABS_VOICE_ID : String := "your-voice-id"

/-- The module-level dict `planetary_agents`, in insertion order. -/
def planetary_agents : List (String × String) :=
  [("Mercury", "Push2Repo"),
   ("Mars", "NotebookLM"),
   ("Saturn", "NLP2CODE"),
   ("Jupiter", "CoManDeck"),
   ("Neptune", "SLAMAR"),
   ("Sedna", "HeylloGen")]

/-- The lookup `planetary_agents.get(agent, "CygNus")` shared by all four
POST handlers (the spec's operation `resolveService`). -/
def resolveService (agent : String) : String :=
  match planetary_agents.find? (fun q => q.1 == agent) with
  | some q => q.2
  | none => "CygNus"

/-! ## Request/response shapes and handlers (`main.py` lines 24-88) -/

/-- JSON values, for the webhook's `data: dict` field. -/
inductive Json where
  | null : Json
  | bool : Bool → Json
  | num : Rat → Json
  | str : String → Json
  | arr : List Json → Json
  | obj : List (String × Json) → Json

/-- Response of `POST /api/nlp2code`. -/
structure ParseResponse where
  parsed : String
  agent : String
  service : String
deriving DecidableEq

/-- Handler `parse_instruction` (`POST /api/nlp2code`, lines 42-48):
`parsed = f"[{routed_service}] {instruction.replace('Animate avatar to', '[ACTION]').strip()}"`. -/
def parse_instruction (instruction agent : String) : ParseResponse :=
  let routed_service := resolveService agent
  { parsed := "[" ++ routed_service ++ "] " ++
      pyStrip (pyReplace instruction "Animate avatar to" "[ACTION]")
  , agent := agent
  , service := routed_service }

/-- The spec's description of the parsed string, in the spec's order of
words: trim surrounding whitespace first, then replace the literal
substring, then prefix the bracketed service. (The code computes replace
first and strip second; `parse_instruction_spec` proves both agree.) -/
def parsedPerSpec (instruction service : String) : String :=
  "[" ++ service ++ "] " ++ pyReplace (pyStrip instruction) "Animate avatar to" "[ACTION]"

/-- Response of `POST /api/avatar`. -/
structure AvatarResponse where
  status : String
  agent : String
  service : String
deriving DecidableEq

/-- Handler `control_avatar` (`POST /api/avatar`, lines 50-56). The
`print` diagnostic is a side effect the response does not depend on and
is not modelled. -/
def control_avatar (action agent : String) : AvatarResponse :=
  let routed_service := resolveService agent
  let _ := action
  { status := "Avatar action routed", agent := agent, service := routed_service }

/-- A transport-level failure of `requests.post` (connection error,
timeout, ...), which in Python is raised as an exception. -/
inductive TransportError where
  | transportFailure : TransportError
deriving DecidableEq

/-- The outbound HTTP request `generate_tts` hands to `requests.post`:
URL, headers, and the JSON payload (text plus the two `voice_settings`
numbers, which are exactly representable and embedded as rationals). -/
structure TtsOutbound where
  url : String
  headers : List (String × String)
  payload_text : String
  payload_stability : Rat
  payload_similarity_boost : Rat
deriving DecidableEq

/-- A JSON response produced with `JSONResponse(content=..., status_code=...)`;
every content value in this program is a string. -/
structure JsonResponse where
  content : List (String × String)
  status_code : Nat
deriving DecidableEq

/-- Result of one `generate_tts` invocation: the request it sent to the
TTS provider, and either the handler's `JSONResponse` or an uncaught
transport error (the Python code does not wrap `requests.post` in
`try`). -/
structure TtsCall where
  request : TtsOutbound
  result : Except TransportError JsonResponse

/-- Handler `generate_tts` (`POST /api/tts`, lines 58-75). The external
call is the parameter `post`, mapping the outbound request to either the
response's status code or a transport error. -/
def generate_tts (text agent : String)
    (post : TtsOutbound → Except TransportError Nat) : TtsCall :=
  let routed_service := resolveService agent
  let req : TtsOutbound :=
    { url := "https://api.elevenlabs.io/v1/text-to-speech/" ++ ELEVENLABS_VOICE_ID
    , headers := [("xi-api-key", ELEVENLABS_API_KEY),
                  ("Content-Type", "application/json")]
    , payload_text := text
    , payload_stability := 1/2
    , payload_similarity_boost := 3/4 }
  { request := req
  , result :=
      match post req with
      | Except.error e => Except.error e
      | Except.ok status_code =>
        if status_code = 200 then
          Except.ok { content := [("status", "TTS generated"), ("agent", agent),
                                  ("service", routed_service)]
                    , status_code := 200 }
        else
          Except.ok { content := [("error", "TTS failed"), ("agent", agent),
                                  ("service", routed_service)]
                    , status_code := 500 } }

/-- Response of `POST /api/webhook`. -/
structure WebhookResponse where
  status : String
  agent : String
  service : String
deriving DecidableEq

/-- Handler `webhook_handler` (`POST /api/webhook`, lines 77-84). The two
`print` diagnostics are side effects the response does not depend on and
are not modelled; `data` is any JSON object. -/
def webhook_handler (event : String) (data : List (String × Json)) (agent : String) :
    WebhookResponse :=
  let routed_service := resolveService agent
  let _ := event
  let _ := data
  { status := "Webhook received", agent := agent, service := routed_service }

/-- Handler `list_agents` (`GET /api/agents`, lines 86-88): returns
`{"planetary_agents": planetary_agents}`. -/
def list_agents : List (String × List (String × String)) :=
  [("planetary_agents", planetary_agents)]

/-! ## Lemmas about the Python string primitives -/

theorem replaceAllL_nil (p r : List Char) : replaceAllL p r [] = [] := by
  rw [replaceAllL]

theorem replaceAllL_cons (p r : List Char) (c : Char) (cs : List Char) :
    replaceAllL p r (c :: cs) =
      if p.isPrefixOf (c :: cs) then r ++ replaceAllL p r (List.drop (p.length - 1) cs)
      else c :: replaceAllL p r cs := by
  rw [replaceAllL]

theorem replaceAllL_cons_neg {p : List Char} (r : List Char) {c : Char} {cs : List Char}
    (h : ¬ p.isPrefixOf (c :: cs) = true) :
    replaceAllL p r (c :: cs) = c :: replaceAllL p r cs := by
  rw [replaceAllL_cons, if_neg h]

/-- Consuming one full occurrence of the (nonempty) pattern at the front. -/
theorem replaceAllL_append_pat {p : List Char} (r t : List Char) (hp : p ≠ []) :
    replaceAllL p r (p ++ t) = r ++ replaceAllL p r t := by
  obtain ⟨c, p', rfl⟩ := List.exists_cons_of_ne_nil hp
  rw [List.cons_append, replaceAllL_cons, if_pos]
  · have hdrop : List.drop ((c :: p').length - 1) (p' ++ t) = t := by
      simp only [List.length_cons, Nat.add_sub_cancel]
      exact List.drop_left p' t
    rw [hdrop]
  · exact List.isPrefixOf_iff_prefix.mpr (by rw [← List.cons_append]; exact List.prefix_append _ _)

/-- Characters different from the pattern's head are copied unchanged. -/
theorem replaceAllL_append_skip {ph : Char} {p' : List Char} (r : List Char) {m : List Char}
    (h : ∀ c ∈ m, c ≠ ph) (t : List Char) :
    replaceAllL (ph :: p') r (m ++ t) = m ++ replaceAllL (ph :: p') r t := by
  induction m with
  | nil => rfl
  | cons c m ih =>
    have hc : c ≠ ph := h c (List.mem_cons_self _ _)
    have hpre : ¬ (ph :: p').isPrefixOf (c :: (m ++ t)) = true := by
      intro hpre
      exact hc (List.cons_prefix_cons.mp ( List.isPrefixOf_iff_prefix.mp hpre)).1.symm
    rw [List.cons_append, replaceAllL_cons_neg _ hpre,
      ih (fun d hd => h d (List.mem_cons_of_mem _ hd)), List.cons_append]

/-- A string without the pattern's head character is left unchanged. -/
theorem replaceAllL_of_not_mem_head {ph : Char} {p' : List Char} (r s : List Char)
    (h : ∀ c ∈ s, c ≠ ph) : replaceAllL (ph :: p') r s = s := by
  have h0 := @replaceAllL_append_skip ph p' r s h []
  simpa [replaceAllL_nil] using h0

theorem replaceAllL_ne_nil {p r : List Char} (hr : r ≠ []) {s : List Char} (hs : s ≠ []) :
    replaceAllL p r s ≠ [] := by
  obtain ⟨c, cs, rfl⟩ := List.exists_cons_of_ne_nil hs
  rw [replaceAllL_cons]
  by_cases hpre : p.isPrefixOf (c :: cs)
  · rw [if_pos hpre]
    intro hcontr
    exact hr (List.append_eq_nil.mp hcontr).1
  · rw [if_neg hpre]
    simp

theorem not_isPrefixOf_mono {p l₁ l₂ : List Char} (h : ¬ p.isPrefixOf l₂ = true)
    (hsub : l₁ <+: l₂) : ¬ p.isPrefixOf l₁ = true := by
  intro hp
  exact h ( List.isPrefixOf_iff_prefix.mpr (( List.isPrefixOf_iff_prefix.mp hp).trans hsub))

theorem lstripL_cons_pos {c : Char} (hc : pyIsSpace c = true) (l : List Char) :
    lstripL (c :: l) = lstripL l := by
  simp [lstripL, List.dropWhile_cons, hc]

theorem lstripL_cons_neg {c : Char} (hc : pyIsSpace c = false) (l : List Char) :
    lstripL (c :: l) = c :: l := by
  simp [lstripL, List.dropWhile_cons, hc]

theorem rstripL_nil : rstripL [] = [] := rfl

theorem rstripL_concat_neg {d : Char} (hd : pyIsSpace d = false) (b : List Char) :
    rstripL (b ++ [d]) = b ++ [d] := by
  rw [rstripL]
  exact List.rdropWhile_concat_neg _ _ _ (by simp [hd])

theorem dropWhile_append_cons {d : Char} (hd : pyIsSpace d = false) (x b : List Char) :
    List.dropWhile pyIsSpace (x ++ d :: b) = List.dropWhile pyIsSpace x ++ d :: b := by
  rw [List.dropWhile_append]
  by_cases h : (List.dropWhile pyIsSpace x).isEmpty
  · rw [if_pos h, List.dropWhile_cons, hd]
    simp only [List.isEmpty_iff] at h
    simp [h]
  · rw [if_neg h]

/-- Right-strip passes over a block that ends in a non-whitespace character. -/
theorem rstripL_append {d : Char} (hd : pyIsSpace d = false) (b x : List Char) :
    rstripL ((b ++ [d]) ++ x) = (b ++ [d]) ++ rstripL x := by
  rw [rstripL, rstripL, List.rdropWhile, List.rdropWhile]
  rw [List.reverse_append, List.reverse_append, List.reverse_singleton, List.singleton_append]
  rw [dropWhile_append_cons hd]
  rw [List.reverse_append, List.reverse_cons, List.reverse_reverse]

theorem rstripL_eq_nil_iff {l : List Char} : rstripL l = [] ↔ ∀ c ∈ l, pyIsSpace c = true := by
  simp [rstripL, List.rdropWhile_eq_nil_iff]

theorem rstripL_cons (c : Char) (l : List Char) :
    rstripL (c :: l) =
      if rstripL l = [] then (if pyIsSpace c then [] else [c]) else c :: rstripL l := by
  simp only [rstripL, List.rdropWhile, List.reverse_cons, List.dropWhile_append,
    List.reverse_eq_nil_iff]
  by_cases h : (List.dropWhile pyIsSpace l.reverse).isEmpty
  · simp only [List.isEmpty_iff] at h
    rw [if_pos (by simp [h]), if_pos h]
    by_cases hc : pyIsSpace c
    · simp [List.dropWhile_cons, hc]
    · simp [List.dropWhile_cons, hc]
  · simp only [List.isEmpty_iff] at h
    rw [if_neg (by simpa using h), if_neg h]
    simp

theorem actPat_cons : actPat = 'A' :: "nimate avatar to".data := rfl

theorem actMark_cons : actMark = '[' :: "ACTION]".data := rfl

theorem actPat_concat : actPat = "Animate avatar t".data ++ ['o'] := by decide

theorem actMark_concat : actMark = "[ACTION".data ++ [']'] := by decide

theorem rstripL_actMark_append (x : List Char) :
    rstripL (actMark ++ x) = actMark ++ rstripL x := by
  rw [actMark_concat]
  exact rstripL_append (by decide) _ x

theorem rstripL_actPat_append (x : List Char) :
    rstripL (actPat ++ x) = actPat ++ rstripL x := by
  rw [actPat_concat]
  exact rstripL_append (by decide) _ x

/-- Left-strip commutes with global replacement when neither the pattern
nor the replacement starts with whitespace. -/
theorem lstripL_replaceAllL {ph rh : Char} (p' r' : List Char)
    (hph : pyIsSpace ph = false) (hrh : pyIsSpace rh = false) (s : List Char) :
    lstripL (replaceAllL (ph :: p') (rh :: r') s) =
      replaceAllL (ph :: p') (rh :: r') (lstripL s) := by
  induction s with
  | nil => simp [lstripL, replaceAllL_nil]
  | cons c cs ih =>
    by_cases hc : pyIsSpace c = true
    · have hcph : ¬ (ph :: p').isPrefixOf (c :: cs) = true := by
        intro hpre
        have hcc : ph = c := (List.cons_prefix_cons.mp ( List.isPrefixOf_iff_prefix.mp hpre)).1
        rw [← hcc, hph] at hc
        exact Bool.noConfusion hc
      rw [replaceAllL_cons_neg _ hcph, lstripL_cons_pos hc, lstripL_cons_pos hc, ih]
    · rw [Bool.not_eq_true] at hc
      by_cases hpre : (ph :: p').isPrefixOf (c :: cs) = true
      · have hrw : replaceAllL (ph :: p') (rh :: r') (c :: cs) =
            rh :: (r' ++ replaceAllL (ph :: p') (rh :: r')
              (List.drop ((ph :: p').length - 1) cs)) := by
          rw [replaceAllL_cons, if_pos hpre, List.cons_append]
        rw [hrw, lstripL_cons_neg hrh, lstripL_cons_neg hc, hrw]
      · rw [replaceAllL_cons_neg _ hpre, lstripL_cons_neg hc, lstripL_cons_neg hc,
          replaceAllL_cons_neg _ hpre]

/-- Left-strip commutes with the program's replacement. -/
theorem lstripL_replaceAllL_act (s : List Char) :
    lstripL (replaceAllL actPat actMark s) = replaceAllL actPat actMark (lstripL s) := by
  rw [actPat_cons, actMark_cons]
  exact lstripL_replaceAllL _ _ (by decide) (by decide) s

/-- Right-strip commutes with the program's replacement: the pattern and
the replacement both end in a non-whitespace character. -/
theorem rstripL_replaceAllL (s : List Char) :
    rstripL (replaceAllL actPat actMark s) = replaceAllL actPat actMark (rstripL s) := by
  induction s using replaceAllL.induct actPat actMark with
  | case1 => rw [replaceAllL_nil, rstripL_nil, replaceAllL_nil]
  | case2 c cs hpre ih =>
    obtain ⟨t, ht⟩ := List.isPrefixOf_iff_prefix.mp hpre
    have h2 : "nimate avatar to".data ++ t = cs := by
      rw [actPat_cons, List.cons_append] at ht
      injection ht
    have hdrop : List.drop (actPat.length - 1) cs = t := by
      rw [← h2, show actPat.length - 1 = ("nimate avatar to".data).length from rfl]
      exact List.drop_left _ _
    have ih' := hdrop ▸ ih
    rw [← ht, replaceAllL_append_pat actMark t (by decide), rstripL_actMark_append,
      rstripL_actPat_append, replaceAllL_append_pat actMark (rstripL t) (by decide), ih']
  | case3 c cs hpre ih =>
    rw [replaceAllL_cons_neg _ hpre, rstripL_cons, rstripL_cons, ih]
    by_cases h1 : rstripL cs = []
    · rw [h1, replaceAllL_nil, if_pos rfl]
      by_cases hc : pyIsSpace c = true
      · rw [if_pos hc, replaceAllL_nil]
      · rw [if_neg hc]
        have hnc : ¬ actPat.isPrefixOf [c] = true :=
          not_isPrefixOf_mono hpre (List.cons_prefix_cons.mpr ⟨rfl, List.nil_prefix⟩)
        rw [replaceAllL_cons_neg _ hnc, replaceAllL_nil]
    · have h2 : replaceAllL actPat actMark (rstripL cs) ≠ [] :=
        replaceAllL_ne_nil (by decide) h1
      rw [if_neg h2, if_neg h1]
      have hnc : ¬ actPat.isPrefixOf (c :: rstripL cs) = true :=
        not_isPrefixOf_mono hpre
          (List.cons_prefix_cons.mpr ⟨rfl, List.rdropWhile_prefix _ _⟩)
      rw [replaceAllL_cons_neg _ hnc]

/-- Python `strip` commutes with the program's `replace`: the code computes
`replace` then `strip`, the spec words say trim then substitute; both give
the same string. -/
theorem stripL_replaceAllL (s : List Char) :
    stripL (replaceAllL actPat actMark s) = replaceAllL actPat actMark (stripL s) := by
  rw [stripL, stripL, lstripL_replaceAllL_act, rstripL_replaceAllL]

/-- The replacement skips any block free of the pattern's head `'A'`. -/
theorem replaceAllL_skip_act {m : List Char} (h : ∀ c ∈ m, c ≠ 'A') (t : List Char) :
    replaceAllL actPat actMark (m ++ t) = m ++ replaceAllL actPat actMark t := by
  rw [actPat_cons]
  exact replaceAllL_append_skip actMark h t

theorem replaceAllL_self : replaceAllL actPat actMark actPat = actMark := by
  have h0 := @replaceAllL_append_pat actPat actMark [] (by decide)
  rw [List.append_nil, replaceAllL_nil, List.append_nil] at h0
  exact h0

theorem rstripL_concat_actMark (b : List Char) : rstripL (b ++ actMark) = b ++ actMark := by
  rw [actMark_concat, ← List.append_assoc]
  rw [rstripL_concat_neg (by decide)]

/-- A string of the shape `marker ++ mid ++ marker` is already stripped. -/
theorem stripL_act_block (mid : List Char) :
    stripL (actMark ++ mid ++ actMark) = actMark ++ mid ++ actMark := by
  rw [stripL]
  have hl : lstripL (actMark ++ mid ++ actMark) = actMark ++ mid ++ actMark := by
    rw [actMark_cons, List.cons_append, List.cons_append]
    exact lstripL_cons_neg (by decide) _
  rw [hl]
  exact rstripL_concat_actMark (actMark ++ mid)

theorem replaceAllL_example1 :
    replaceAllL actPat actMark "Animate avatar to dance".data = "[ACTION] dance".data := by
  have h1 : "Animate avatar to dance".data = actPat ++ " dance".data := by decide
  have h2 : replaceAllL actPat actMark " dance".data = " dance".data := by
    rw [actPat_cons]
    exact replaceAllL_of_not_mem_head _ _ (by decide)
  rw [h1, replaceAllL_append_pat actMark _ (by decide), h2]
  decide

theorem replaceAllL_example2 : replaceAllL actPat actMark "do X".data = "do X".data := by
  rw [actPat_cons]
  exact replaceAllL_of_not_mem_head _ _ (by decide)

/-- Evaluation of `generate_tts` when the external call returns a status. -/
theorem generate_tts_result_ok (text agent : String)
    (post : TtsOutbound → Except TransportError Nat) (st : Nat)
    (hpost : post (generate_tts text agent post).request = Except.ok st) :
    (generate_tts text agent post).result =
      (if st = 200 then
        Except.ok { content := [("status", "TTS generated"), ("agent", agent),
                                ("service", resolveService agent)], status_code := 200 }
      else
        Except.ok { content := [("error", "TTS failed"), ("agent", agent),
                                ("service", resolveService agent)], status_code := 500 }) := by
  simp only [generate_tts] at hpost ⊢
  rw [hpost]

/-- Evaluation of `generate_tts` when the external call raises. -/
theorem generate_tts_result_error (text agent : String)
    (post : TtsOutbound → Except TransportError Nat) (e : TransportError)
    (hpost : post (generate_tts text agent post).request = Except.error e) :
    (generate_tts text agent post).result = Except.error e := by
  simp only [generate_tts] at hpost ⊢
  rw [hpost]

/-! ## The split characterization of the global replacement -/

theorem splitOnPatL_nil (p : List Char) : splitOnPatL p [] = [[]] := by
  rw [splitOnPatL]

theorem splitOnPatL_cons (p : List Char) (c : Char) (cs : List Char) :
    splitOnPatL p (c :: cs) =
      if p.isPrefixOf (c :: cs) then [] :: splitOnPatL p (List.drop (p.length - 1) cs)
      else (c :: (splitOnPatL p cs).headD []) :: (splitOnPatL p cs).tail := by
  rw [splitOnPatL]

theorem splitOnPatL_ne_nil (p : List Char) (s : List Char) : splitOnPatL p s ≠ [] := by
  cases s with
  | nil =>
    rw [splitOnPatL_nil]
    simp
  | cons c cs =>
    rw [splitOnPatL_cons]
    by_cases h : p.isPrefixOf (c :: cs) = true
    · rw [if_pos h]
      simp
    · rw [if_neg h]
      simp

theorem headD_cons_tail {l : List (List Char)} (h : l ≠ []) : l.headD [] :: l.tail = l := by
  obtain ⟨x, xs, rfl⟩ := List.exists_cons_of_ne_nil h
  simp

theorem intercalate_single (r x : List Char) : List.intercalate r [x] = x := by
  simp [List.intercalate]

theorem intercalate_cons_cons (r x y : List Char) (zs : List (List Char)) :
    List.intercalate r (x :: y :: zs) = x ++ r ++ List.intercalate r (y :: zs) := by
  simp [List.intercalate, List.intersperse]

theorem intercalate_cons_head (r z : List Char) (c : Char) (zs : List (List Char)) :
    List.intercalate r ((c :: z) :: zs) = c :: List.intercalate r (z :: zs) := by
  cases zs with
  | nil => rw [intercalate_single, intercalate_single]
  | cons y ys =>
    rw [intercalate_cons_cons, intercalate_cons_cons, List.cons_append, List.cons_append]

/-- Consuming a matched occurrence reconstructs the scanned string. -/
theorem pat_append_drop {p : List Char} (hp : p ≠ []) {c : Char} {cs : List Char}
    (hpre : p.isPrefixOf (c :: cs) = true) :
    p ++ List.drop (p.length - 1) cs = c :: cs := by
  obtain ⟨t, ht⟩ := List.isPrefixOf_iff_prefix.mp hpre
  obtain ⟨d, p', rfl⟩ := List.exists_cons_of_ne_nil hp
  rw [List.cons_append] at ht
  injection ht with h1 h2
  subst h1
  have hdrop : List.drop ((d :: p').length - 1) cs = t := by
    rw [← h2, show (d :: p').length - 1 = p'.length by simp]
    exact List.drop_left _ _
  rw [hdrop, ← h2, ← List.cons_append]

/-- The input string is its segments joined by the pattern: the split's
separator positions are genuine occurrences of the pattern. -/
theorem intercalate_splitOnPatL {p : List Char} (hp : p ≠ []) (s : List Char) :
    List.intercalate p (splitOnPatL p s) = s := by
  induction s using splitOnPatL.induct p with
  | case1 => rw [splitOnPatL_nil, intercalate_single]
  | case2 c cs hpre ih =>
    rw [splitOnPatL_cons, if_pos hpre]
    obtain ⟨z, zs, hz⟩ :=
      List.exists_cons_of_ne_nil (splitOnPatL_ne_nil p (List.drop (p.length - 1) cs))
    rw [hz, intercalate_cons_cons, List.nil_append, ← hz, ih]
    exact pat_append_drop hp hpre
  | case3 c cs hpre ih =>
    rw [splitOnPatL_cons, if_neg hpre]
    obtain ⟨z, zs, hz⟩ := List.exists_cons_of_ne_nil (splitOnPatL_ne_nil p cs)
    rw [hz]
    simp only [List.headD_cons, List.tail_cons]
    rw [intercalate_cons_head, ← hz, ih]

/-- The replacement output is the same segments joined by `r`: every
occurrence the scan finds is replaced, not only the first. -/
theorem replaceAllL_eq_intercalate {p : List Char} (r : List Char) (s : List Char) :
    replaceAllL p r s = List.intercalate r (splitOnPatL p s) := by
  induction s using splitOnPatL.induct p with
  | case1 => rw [replaceAllL_nil, splitOnPatL_nil, intercalate_single]
  | case2 c cs hpre ih =>
    rw [replaceAllL_cons, if_pos hpre, splitOnPatL_cons, if_pos hpre]
    obtain ⟨z, zs, hz⟩ :=
      List.exists_cons_of_ne_nil (splitOnPatL_ne_nil p (List.drop (p.length - 1) cs))
    rw [hz, intercalate_cons_cons, List.nil_append, ← hz, ih]
  | case3 c cs hpre ih =>
    rw [replaceAllL_cons, if_neg hpre, splitOnPatL_cons, if_neg hpre]
    obtain ⟨z, zs, hz⟩ := List.exists_cons_of_ne_nil (splitOnPatL_ne_nil p cs)
    rw [hz]
    simp only [List.headD_cons, List.tail_cons]
    rw [intercalate_cons_head, ← hz, ih]

/-- The head segment of the split is an initial stretch of the input. -/
theorem splitOnPatL_headD (p : List Char) (s : List Char) :
    (splitOnPatL p s).headD [] <+: s := by
  induction s using splitOnPatL.induct p with
  | case1 =>
    rw [splitOnPatL_nil]
    simp
  | case2 c cs hpre ih =>
    rw [splitOnPatL_cons, if_pos hpre]
    simp only [List.headD_cons]
    exact List.nil_prefix
  | case3 c cs hpre ih =>
    rw [splitOnPatL_cons, if_neg hpre]
    simp only [List.headD_cons]
    exact List.cons_prefix_cons.mpr ⟨rfl, ih⟩

theorem not_pat_in_nil : ¬ actPat <:+: ([] : List Char) := by
  rintro ⟨a, b, hab⟩
  have h1 := List.append_eq_nil.mp hab
  exact absurd (List.append_eq_nil.mp h1.1).2 (by decide)

/-- No segment of the split contains a further occurrence of the pattern:
the split accounts for every occurrence (the pattern has no self-overlap). -/
theorem splitOnPatL_segments (s : List Char) :
    ∀ seg ∈ splitOnPatL actPat s, ¬ actPat <:+: seg := by
  induction s using splitOnPatL.induct actPat with
  | case1 =>
    intro seg hseg
    rw [splitOnPatL_nil, List.mem_singleton] at hseg
    subst hseg
    exact not_pat_in_nil
  | case2 c cs hpre ih =>
    intro seg hseg
    rw [splitOnPatL_cons, if_pos hpre] at hseg
    rcases List.mem_cons.mp hseg with h | h
    · subst h
      exact not_pat_in_nil
    · exact ih seg h
  | case3 c cs hpre ih =>
    intro seg hseg
    rw [splitOnPatL_cons, if_neg hpre] at hseg
    obtain ⟨z, zs, hz⟩ := List.exists_cons_of_ne_nil (splitOnPatL_ne_nil actPat cs)
    rw [hz] at hseg
    simp only [List.headD_cons, List.tail_cons] at hseg
    rcases List.mem_cons.mp hseg with h | h
    · subst h
      rintro ⟨a, b, hab⟩
      cases a with
      | nil =>
        rw [List.nil_append] at hab
        have hpz : actPat <+: c :: z := ⟨b, hab⟩
        have hzcs : z <+: cs := by
          have hh := splitOnPatL_headD actPat cs
          rw [hz] at hh
          simpa using hh
        have hcc : actPat <+: c :: cs :=
          hpz.trans (List.cons_prefix_cons.mpr ⟨rfl, hzcs⟩)
        exact hpre ( List.isPrefixOf_iff_prefix.mpr hcc)
      | cons a₀ a' =>
        rw [List.cons_append, List.cons_append] at hab
        injection hab with h1 h2
        have hzin : z ∈ splitOnPatL actPat cs := by
          rw [hz]
          exact List.mem_cons_self _ _
        exact ih z hzin ⟨a', b, h2⟩
    · have hin : seg ∈ splitOnPatL actPat cs := by
        rw [hz]
        exact List.mem_cons_of_mem _ h
      exact ih seg hin

/-- A prefix of the replacement output that avoids the marker's head
character is a prefix of the original input. -/
theorem replaceAllL_pre_no_bracket (s : List Char) :
    ∀ q : List Char, '[' ∉ q → q <+: replaceAllL actPat actMark s → q <+: s := by
  induction s using replaceAllL.induct actPat actMark with
  | case1 =>
    intro q hq hq2
    rw [replaceAllL_nil] at hq2
    exact hq2
  | case2 c cs hpre ih =>
    intro q hq hq2
    rw [replaceAllL_cons, if_pos hpre] at hq2
    cases q with
    | nil => exact List.nil_prefix
    | cons q₀ q' =>
      rw [actMark_cons, List.cons_append] at hq2
      have h0 : q₀ = '[' := (List.cons_prefix_cons.mp hq2).1
      subst h0
      exact absurd (List.mem_cons_self _ _) hq
  | case3 c cs hpre ih =>
    intro q hq hq2
    rw [replaceAllL_cons, if_neg hpre] at hq2
    cases q with
    | nil => exact List.nil_prefix
    | cons q₀ q' =>
      obtain ⟨h0, h1⟩ := List.cons_prefix_cons.mp hq2
      have hq' : '[' ∉ q' := fun hmem => hq (List.mem_cons_of_mem _ hmem)
      exact List.cons_prefix_cons.mpr ⟨h0, ih q' hq' h1⟩

/-- Any nonempty final stretch of the marker contains its closing bracket. -/
theorem mem_rbracket_of_actMark_eq_append {a a' : List Char}
    (ha : actMark = a ++ a') (hne : a' ≠ []) : ']' ∈ a' := by
  have hd : a' = List.drop a.length actMark := by
    rw [ha, List.drop_left]
  have hlen : a.length < 8 := by
    have h8 : actMark.length = a.length + a'.length := by
      rw [ha, List.length_append]
    have h9 : a'.length ≠ 0 := fun h0 => hne (List.length_eq_zero.mp h0)
    have h10 : actMark.length = 8 := rfl
    omega
  rw [hd]
  set n := a.length with hn
  interval_cases n <;> decide

/-- No occurrence of the pattern survives anywhere in the replacement
output: an occurrence can neither sit inside copied text (the scan would
have replaced it) nor straddle an emitted marker (the pattern contains
neither bracket). -/
theorem replaceAllL_no_pat (s : List Char) :
    ∀ a b : List Char, a ++ actPat ++ b = replaceAllL actPat actMark s → False := by
  induction s using replaceAllL.induct actPat actMark with
  | case1 =>
    intro a b hab
    rw [replaceAllL_nil] at hab
    have h1 := List.append_eq_nil.mp hab
    exact absurd (List.append_eq_nil.mp h1.1).2 (by decide)
  | case2 c cs hpre ih =>
    intro a b hab
    rw [replaceAllL_cons, if_pos hpre] at hab
    rw [List.append_assoc] at hab
    rcases List.append_eq_append_iff.mp hab with ⟨a', ha1, ha2⟩ | ⟨c', hc1, hc2⟩
    · cases a' with
      | nil =>
        rw [List.nil_append] at ha2
        apply ih [] b
        rw [List.nil_append]
        exact ha2
      | cons a₀ a'' =>
        rcases List.append_eq_append_iff.mp ha2 with ⟨w, hw1, hw2⟩ | ⟨w, hw1, hw2⟩
        · have hl1 : (a₀ :: a'').length ≤ actMark.length := by
            rw [ha1, List.length_append]
            omega
          rw [hw1, List.length_append] at hl1
          have hl2 : actPat.length ≤ actMark.length := by omega
          exact absurd hl2 (by decide)
        · have hb : ']' ∈ (a₀ :: a'') := mem_rbracket_of_actMark_eq_append ha1 (by simp)
          have hbp : ']' ∈ actPat := by
            rw [hw1]
            exact List.mem_append_left _ hb
          exact absurd hbp (by decide)
    · apply ih c' b
      rw [← List.append_assoc] at hc2
      exact hc2.symm
  | case3 c cs hpre ih =>
    intro a b hab
    rw [replaceAllL_cons, if_neg hpre] at hab
    cases a with
    | nil =>
      rw [List.nil_append] at hab
      rw [actPat_cons, List.cons_append] at hab
      injection hab with h1 h2
      subst h1
      have hq : "nimate avatar to".data <+: replaceAllL actPat actMark cs := ⟨b, h2⟩
      have hq2 : "nimate avatar to".data <+: cs :=
        replaceAllL_pre_no_bracket cs _ (by decide) hq
      have h3 : actPat <+: 'A' :: cs := by
        rw [actPat_cons]
        exact List.cons_prefix_cons.mpr ⟨rfl, hq2⟩
      exact hpre ( List.isPrefixOf_iff_prefix.mpr h3)
    | cons a₀ a' =>
      rw [List.cons_append, List.cons_append] at hab
      injection hab with h1 h2
      exact ih a' b h2

/-- Skipping a block free of the pattern's head character prepends it to
the first segment. -/
theorem splitOnPatL_skip (m : List Char) (h : ∀ c ∈ m, c ≠ 'A') (t : List Char) :
    splitOnPatL actPat (m ++ t) =
      (m ++ (splitOnPatL actPat t).headD []) :: (splitOnPatL actPat t).tail := by
  induction m with
  | nil =>
    simp only [List.nil_append]
    exact (headD_cons_tail (splitOnPatL_ne_nil actPat t)).symm
  | cons c m ih =>
    have hc : ¬ actPat.isPrefixOf (c :: (m ++ t)) = true := by
      intro hp2
      have h3 := List.isPrefixOf_iff_prefix.mp hp2
      rw [actPat_cons] at h3
      exact h c (List.mem_cons_self _ _) (List.cons_prefix_cons.mp h3).1.symm
    rw [List.cons_append, splitOnPatL_cons, if_neg hc,
      ih (fun d hd => h d (List.mem_cons_of_mem _ hd))]
    simp only [List.headD_cons, List.tail_cons, List.cons_append]

theorem splitOnPatL_all_skip {s : List Char} (h : ∀ c ∈ s, c ≠ 'A') :
    splitOnPatL actPat s = [s] := by
  have h0 := splitOnPatL_skip s h []
  rw [splitOnPatL_nil] at h0
  simpa using h0

theorem splitOnPatL_append_pat (t : List Char) :
    splitOnPatL actPat (actPat ++ t) = [] :: splitOnPatL actPat t := by
  have hpre : actPat.isPrefixOf (actPat ++ t) = true :=
    List.isPrefixOf_iff_prefix.mpr (List.prefix_append _ _)
  have hshape : actPat ++ t = 'A' :: ("nimate avatar to".data ++ t) := by
    rw [actPat_cons, List.cons_append]
  rw [hshape, splitOnPatL_cons, if_pos (by rw [← hshape]; exact hpre)]
  congr 1

/-- C1: `resolveService` is total: on each registered key it returns that
key's configured value, and on every other string it returns the fallback
"CygNus". (Totality and absence of side effects are inherent: it is a
Lean function.) -/
theorem resolveService_total :
    (∀ q ∈ planetary_agents, resolveService q.1 = q.2) ∧
    (∀ a : String, a ∉ planetary_agents.map Prod.fst → resolveService a = "CygNus") := by
  constructor
  · decide
  · intro a ha
    unfold resolveService
    rw [List.find?_eq_none.mpr]
    intro x hx
    have hne : x.1 ≠ a := fun h => ha (h ▸ List.mem_map_of_mem Prod.fst hx)
    simp [hne]

/-- Witness for C1 at the unregistered agent "Pluto". -/
theorem resolveService_total_witness :
    "Pluto" ∉ planetary_agents.map Prod.fst ∧ resolveService "Pluto" = "CygNus" :=
  ⟨by decide, resolveService_total.2 "Pluto" (by decide)⟩

/-- C2: for every instruction and agent, `parse_instruction` returns the
spec's trim-then-substitute composition prefixed with the bracketed
resolved service, together with the original agent and the resolved
service; moreover the two spec examples hold: ("Animate avatar to dance",
"Mars") parses to "[NotebookLM] [ACTION] dance" and ("do X", "Pluto")
parses to "[CygNus] do X". -/
theorem parse_instruction_spec :
    (∀ instruction agent : String,
      parse_instruction instruction agent =
        { parsed := parsedPerSpec instruction (resolveService agent)
        , agent := agent
        , service := resolveService agent }) ∧
    parse_instruction "Animate avatar to dance" "Mars" =
      { parsed := "[NotebookLM] [ACTION] dance", agent := "Mars", service := "NotebookLM" } ∧
    parse_instruction "do X" "Pluto" =
      { parsed := "[CygNus] do X", agent := "Pluto", service := "CygNus" } := by
  refine ⟨?_, ?_, ?_⟩
  · intro instruction agent
    have h : pyStrip (pyReplace instruction "Animate avatar to" "[ACTION]") =
        pyReplace (pyStrip instruction) "Animate avatar to" "[ACTION]" :=
      String.ext (stripL_replaceAllL instruction.data)
    simp only [parse_instruction, parsedPerSpec]
    rw [h]
  · have h : pyStrip (pyReplace "Animate avatar to dance" "Animate avatar to" "[ACTION]") =
        "[ACTION] dance" := by
      apply String.ext
      show stripL (replaceAllL actPat actMark "Animate avatar to dance".data) =
        ("[ACTION] dance" : String).data
      rw [replaceAllL_example1]
      decide
    simp only [parse_instruction]
    rw [h]
    decide
  · have h : pyStrip (pyReplace "do X" "Animate avatar to" "[ACTION]") = "do X" := by
      apply String.ext
      show stripL (replaceAllL actPat actMark "do X".data) = ("do X" : String).data
      rw [replaceAllL_example2]
      decide
    simp only [parse_instruction]
    rw [h]
    decide

/-- C4: the substitution is global over every instruction string, not
first-occurrence-only: every instruction equals its split segments joined
by "Animate avatar to" (so the split's separators are exactly its
occurrences, the segments containing no further one), the replacement
output is the same segments joined by "[ACTION]", no occurrence of the
pattern survives in the output, and the parsed string is the prefixed,
stripped join — so all occurrences, however many, appear as "[ACTION]". -/
theorem parse_instruction_replaces_all :
    (∀ s : List Char, List.intercalate actPat (splitOnPatL actPat s) = s) ∧
    (∀ s : List Char, ∀ seg ∈ splitOnPatL actPat s, ¬ actPat <:+: seg) ∧
    (∀ s : List Char,
      replaceAllL actPat actMark s = List.intercalate actMark (splitOnPatL actPat s)) ∧
    (∀ s : List Char, ¬ actPat <:+: replaceAllL actPat actMark s) ∧
    (∀ instruction agent : String,
      (parse_instruction instruction agent).parsed =
        "[" ++ resolveService agent ++ "] " ++
          (⟨stripL (List.intercalate actMark (splitOnPatL actPat instruction.data))⟩ :
            String)) := by
  refine ⟨fun s => intercalate_splitOnPatL (by decide) s,
          splitOnPatL_segments,
          fun s => replaceAllL_eq_intercalate actMark s,
          fun s hin => ?_, ?_⟩
  · obtain ⟨a, b, hab⟩ := hin
    exact replaceAllL_no_pat s a b hab
  · intro instruction agent
    simp only [parse_instruction]
    have h : pyStrip (pyReplace instruction "Animate avatar to" "[ACTION]") =
        (⟨stripL (List.intercalate actMark (splitOnPatL actPat instruction.data))⟩ :
          String) := by
      apply String.ext
      show stripL (replaceAllL actPat actMark instruction.data) = _
      rw [replaceAllL_eq_intercalate]
    rw [h]

/-- Witness for C4 at an instruction with two occurrences surrounded by
other text: both become "[ACTION]" in the parsed output. -/
theorem parse_instruction_replaces_all_witness :
    (parse_instruction "Animate avatar to dance and Animate avatar to sing" "Mars").parsed =
      "[NotebookLM] [ACTION] dance and [ACTION] sing" := by
  have h := parse_instruction_replaces_all.2.2.2.2
    "Animate avatar to dance and Animate avatar to sing" "Mars"
  rw [h]
  have he : "Animate avatar to dance and Animate avatar to sing".data =
      actPat ++ (" dance and ".data ++ (actPat ++ " sing".data)) := by decide
  have hsplit : splitOnPatL actPat
      "Animate avatar to dance and Animate avatar to sing".data =
      [[], " dance and ".data, " sing".data] := by
    rw [he, splitOnPatL_append_pat,
      splitOnPatL_skip " dance and ".data (by decide) (actPat ++ " sing".data),
      splitOnPatL_append_pat, splitOnPatL_all_skip (by decide)]
    simp
  rw [hsplit]
  decide

/-- C10: for an empty or whitespace-only instruction the parsed string is
exactly the bracketed service followed by a single trailing space. -/
theorem parse_instruction_whitespace (instruction agent : String)
    (h : ∀ c ∈ instruction.data, pyIsSpace c = true) :
    (parse_instruction instruction agent).parsed = "[" ++ resolveService agent ++ "] " := by
  simp only [parse_instruction]
  have hid : replaceAllL actPat actMark instruction.data = instruction.data := by
    rw [actPat_cons]
    refine replaceAllL_of_not_mem_head _ _ (fun c hc he => ?_)
    have hs := h c hc
    rw [he] at hs
    exact absurd hs (by decide)
  have hstrip : pyStrip (pyReplace instruction "Animate avatar to" "[ACTION]") = "" := by
    apply String.ext
    show stripL (replaceAllL actPat actMark instruction.data) = ("" : String).data
    rw [hid, stripL, lstripL, List.dropWhile_eq_nil_iff.mpr h, rstripL_nil]
  rw [hstrip]
  apply String.ext
  simp [String.data_append]

/-- Witness for C10 at the two-space instruction and agent "Mars". -/
theorem parse_instruction_whitespace_witness :
    (∀ c ∈ ("  " : String).data, pyIsSpace c = true) ∧
    (parse_instruction "  " "Mars").parsed = "[" ++ resolveService "Mars" ++ "] " :=
  ⟨by decide, parse_instruction_whitespace "  " "Mars" (by decide)⟩

/-- C3 (amended): when the external call completes with an HTTP status,
`generate_tts` returns exactly one of two responses: status 200 with the
success payload when the external status is 200, otherwise status 500
with the error payload, both payloads carrying agent and resolved
service; a transport error instead propagates out of the handler uncaught
rather than being surfaced as a 500 payload. -/
theorem generate_tts_outcomes (text agent : String)
    (post : TtsOutbound → Except TransportError Nat) :
    (∀ st : Nat, post (generate_tts text agent post).request = Except.ok st →
      (generate_tts text agent post).result =
        (if st = 200 then
          Except.ok { content := [("status", "TTS generated"), ("agent", agent),
                                  ("service", resolveService agent)], status_code := 200 }
        else
          Except.ok { content := [("error", "TTS failed"), ("agent", agent),
                                  ("service", resolveService agent)], status_code := 500 })) ∧
    (∀ e : TransportError, post (generate_tts text agent post).request = Except.error e →
      (generate_tts text agent post).result = Except.error e) :=
  ⟨fun st hpost => generate_tts_result_ok text agent post st hpost,
   fun e hpost => generate_tts_result_error text agent post e hpost⟩

/-- Witness for C3: a 404 from the provider yields the 500 error payload. -/
theorem generate_tts_outcomes_witness :
    (generate_tts "hello" "Pluto" (fun _ => Except.ok 404)).result =
      Except.ok { content := [("error", "TTS failed"), ("agent", "Pluto"),
                              ("service", resolveService "Pluto")], status_code := 500 } := by
  have h := (generate_tts_outcomes "hello" "Pluto" (fun _ => Except.ok 404)).1 404 rfl
  rw [h, if_neg (by decide)]

/-- C3 counterexample: with a transport error from the external call the
handler produces no JSON response at all — the error propagates — so in
particular it does not return the 500 payload with agent and service the
claim requires for transport errors. -/
theorem generate_tts_transport_error_uncaught :
    (generate_tts "hello" "Mars"
        (fun _ => Except.error TransportError.transportFailure)).result =
      Except.error TransportError.transportFailure ∧
    (generate_tts "hello" "Mars"
        (fun _ => Except.error TransportError.transportFailure)).result ≠
      Except.ok { content := [("error", "TTS failed"), ("agent", "Mars"),
                              ("service", "NotebookLM")], status_code := 500 } := by
  constructor
  · rfl
  · intro hcontr
    rw [show (generate_tts "hello" "Mars"
        (fun _ => Except.error TransportError.transportFailure)).result =
      Except.error TransportError.transportFailure from rfl] at hcontr
    exact Except.noConfusion hcontr

/-- C5: `list_agents` returns exactly the six configured agent/service
pairs wrapped under the "planetary_agents" key, with no extras and no
duplicate keys; being a constant, it is the same at every call. -/
theorem list_agents_exact :
    list_agents = [("planetary_agents",
      [("Mercury", "Push2Repo"), ("Mars", "NotebookLM"), ("Saturn", "NLP2CODE"),
       ("Jupiter", "CoManDeck"), ("Neptune", "SLAMAR"), ("Sedna", "HeylloGen")])] ∧
    (planetary_agents.map Prod.fst).Nodup :=
  ⟨rfl, by decide⟩

/-- C6: `webhook_handler` never fails: for every event, JSON-object data
and agent it returns the fixed acknowledgment with the agent unchanged and
the resolved service, inspecting nothing of `data`. -/
theorem webhook_handler_never_fails (event : String) (data : List (String × Json))
    (agent : String) :
    webhook_handler event data agent =
      { status := "Webhook received", agent := agent, service := resolveService agent } := rfl

/-- C7: the outbound TTS request carries the input text, stability 0.5 and
similarity-boost 0.75 in its JSON body, the configured API credential in a
header, and targets the endpoint parameterized by the voice identifier. -/
theorem generate_tts_outbound (text agent : String)
    (post : TtsOutbound → Except TransportError Nat) :
    (generate_tts text agent post).request.payload_text = text ∧
    (generate_tts text agent post).request.payload_stability = 1/2 ∧
    (generate_tts text agent post).request.payload_similarity_boost = 3/4 ∧
    ("xi-api-key", ELEVENLABS_API_KEY) ∈ (generate_tts text agent post).request.headers ∧
    (generate_tts text agent post).request.url =
      "https://api.elevenlabs.io/v1/text-to-speech/" ++ ELEVENLABS_VOICE_ID :=
  ⟨rfl, rfl, rfl, List.mem_cons_self _ _, rfl⟩

/-- C8: all four POST handlers echo the request's agent unchanged and the
service resolved from it; for the TTS handler this holds in both the 200
and the 500 branch whenever the external call returns a status. -/
theorem handlers_echo_agent_service (instruction action text event agent : String)
    (data : List (String × Json)) (post : TtsOutbound → Except TransportError Nat)
    (st : Nat) :
    (parse_instruction instruction agent).agent = agent ∧
    (parse_instruction instruction agent).service = resolveService agent ∧
    (control_avatar action agent).agent = agent ∧
    (control_avatar action agent).service = resolveService agent ∧
    (webhook_handler event data agent).agent = agent ∧
    (webhook_handler event data agent).service = resolveService agent ∧
    (post (generate_tts text agent post).request = Except.ok st →
      ∃ resp : JsonResponse, (generate_tts text agent post).result = Except.ok resp ∧
        ("agent", agent) ∈ resp.content ∧ ("service", resolveService agent) ∈ resp.content) := by
  refine ⟨rfl, rfl, rfl, rfl, rfl, rfl, ?_⟩
  intro hpost
  rw [generate_tts_result_ok text agent post st hpost]
  by_cases hst : st = 200
  · rw [if_pos hst]
    exact ⟨_, rfl, by simp, by simp⟩
  · rw [if_neg hst]
    exact ⟨_, rfl, by simp, by simp⟩

/-- Witness for C8 through the TTS success branch at agent "Mars". -/
theorem handlers_echo_agent_service_witness :
    ∃ resp : JsonResponse,
      (generate_tts "hello" "Mars" (fun _ => Except.ok 200)).result = Except.ok resp ∧
      ("agent", "Mars") ∈ resp.content ∧ ("service", resolveService "Mars") ∈ resp.content :=
  (handlers_echo_agent_service "do X" "wave" "hello" "evt" "Mars" []
    (fun _ => Except.ok 200) 200).2.2.2.2.2.2 rfl

/-- C9: the outbound request `generate_tts` sends to the provider does not
depend on the agent: same text, different agents, identical request. -/
theorem generate_tts_request_agent_independent (text a₁ a₂ : String)
    (post : TtsOutbound → Except TransportError Nat) :
    (generate_tts text a₁ post).request = (generate_tts text a₂ post).request := rfl

end Portal
